import Mathlib

/-!
Verification of the Tucano trackball camera controller
(src/libs/Tucano/Trackball.hpp) against its design specification.

The C++ class `Tucano::Trackball` is embedded shallowly: its mutable fields
become a Lean structure `Trackball`, every public member function becomes a
state-transforming function, and the floating-point arithmetic of the source
is read in exact real arithmetic (`Real.sqrt` for `std::sqrt`, `Real.arccos`
for `acos`, Mathlib's `Quaternion ℝ` for `Eigen::Quaternion<float>`).

The base class `Tucano::Camera` (file Camera.hpp) is not part of the sources;
the few primitives the trackball consumes from it (`resetViewMatrix`,
`rotate`, `translate`, `scale`, the viewport rectangle) are modelled from the
specification, which describes them as composable operators that each
left-multiply their 4x4 matrix into the maintained view matrix.
-/

noncomputable section

open Classical

/-- Two-dimensional real vector, mirroring `Eigen::Vector2f`. -/
structure Vec2 where
  x : ℝ
  y : ℝ

/-- Three-dimensional real vector, mirroring `Eigen::Vector3f`. -/
structure Vec3 where
  x : ℝ
  y : ℝ
  z : ℝ

instance : Zero Vec2 := ⟨⟨0, 0⟩⟩

instance : Zero Vec3 := ⟨⟨0, 0, 0⟩⟩

instance : Add Vec3 := ⟨fun a b => ⟨a.x + b.x, a.y + b.y, a.z + b.z⟩⟩

instance : Sub Vec2 := ⟨fun a b => ⟨a.x - b.x, a.y - b.y⟩⟩

/-- Scalar multiple of a 3-vector. -/
def Vec3.smul (c : ℝ) (v : Vec3) : Vec3 := ⟨c * v.x, c * v.y, c * v.z⟩

/-- Dot product, mirroring `Eigen::Vector3f::dot`. -/
def Vec3.dot (a b : Vec3) : ℝ := a.x * b.x + a.y * b.y + a.z * b.z

/-- Cross product, mirroring `Eigen::Vector3f::cross`. -/
def Vec3.cross (a b : Vec3) : Vec3 :=
  ⟨a.y * b.z - a.z * b.y, a.z * b.x - a.x * b.z, a.x * b.y - a.y * b.x⟩

/-- Squared Euclidean norm of a 3-vector (`Eigen::Vector3f::squaredNorm`). -/
def Vec3.normSq (v : Vec3) : ℝ := v.x ^ 2 + v.y ^ 2 + v.z ^ 2

/-- Euclidean norm of a 3-vector (`Eigen::Vector3f::norm`). -/
def Vec3.norm (v : Vec3) : ℝ := Real.sqrt v.normSq

/-- Unit vector in the direction of `v` (`Eigen::Vector3f::normalized`,
and the effect of the in-place `normalize()`). -/
def Vec3.normalized (v : Vec3) : Vec3 := Vec3.smul (1 / v.norm) v

/-- First two components of a 3-vector (`Eigen` expression `v.head(2)`). -/
def Vec3.head2 (v : Vec3) : Vec2 := ⟨v.x, v.y⟩

/-- Quaternion over the reals, mirroring `Eigen::Quaternion<float>`. -/
abbrev Quat := Quaternion ℝ

/-- Quaternion built from an angle and an axis, mirroring the
`Eigen::AngleAxis` to quaternion conversion: real part `cos(angle/2)`,
imaginary part `sin(angle/2) * axis`. -/
def quatOfAngleAxis (angle : ℝ) (axis : Vec3) : Quat :=
  ⟨Real.cos (angle / 2), Real.sin (angle / 2) * axis.x,
    Real.sin (angle / 2) * axis.y, Real.sin (angle / 2) * axis.z⟩

/-- Quaternion scaled to unit length, mirroring
`Eigen::Quaternion::normalize` (division of every coefficient by the norm). -/
def quatNormalize (q : Quat) : Quat := (‖q‖)⁻¹ • q

/-- Rotation of a vector by a quaternion, mirroring Eigen's
`Quaternion::_transformVector` (the effect of `q * v` for a vector `v`):
`v + w * (2 u x v) + u x (2 u x v)` where `q = (w, u)`. -/
def quatTransformVector (q : Quat) (v : Vec3) : Vec3 :=
  let u : Vec3 := ⟨q.imI, q.imJ, q.imK⟩
  let uv : Vec3 := Vec3.smul 2 (Vec3.cross u v)
  v + Vec3.smul q.re uv + Vec3.cross u uv

/-- Real 4x4 matrices, the type of the view matrix. -/
abbrev M4 := Matrix (Fin 4) (Fin 4) ℝ

/-- Homogeneous 4x4 rotation matrix of a (unit) quaternion, mirroring
`Eigen::Quaternion::toRotationMatrix` as used by `Transform::rotate`. -/
def rotM (q : Quat) : M4 :=
  Matrix.of
    ![![1 - 2 * (q.imJ ^ 2 + q.imK ^ 2), 2 * (q.imI * q.imJ - q.re * q.imK),
        2 * (q.imI * q.imK + q.re * q.imJ), 0],
      ![2 * (q.imI * q.imJ + q.re * q.imK), 1 - 2 * (q.imI ^ 2 + q.imK ^ 2),
        2 * (q.imJ * q.imK - q.re * q.imI), 0],
      ![2 * (q.imI * q.imK - q.re * q.imJ), 2 * (q.imJ * q.imK + q.re * q.imI),
        1 - 2 * (q.imI ^ 2 + q.imJ ^ 2), 0],
      ![0, 0, 0, 1]]

/-- Homogeneous 4x4 translation matrix. -/
def transM (v : Vec3) : M4 :=
  Matrix.of
    ![![1, 0, 0, v.x], ![0, 1, 0, v.y], ![0, 0, 1, v.z], ![0, 0, 0, 1]]

/-- Homogeneous 4x4 uniform scale matrix. -/
def scaleM (c : ℝ) : M4 :=
  Matrix.of
    ![![c, 0, 0, 0], ![0, c, 0, 0], ![0, 0, c, 0], ![0, 0, 0, 1]]

/-- State of a `Tucano::Trackball` object: its own protected fields plus the
fields it uses from the `Tucano::Camera` base (view matrix, projection
matrix, viewport rectangle). -/
structure Trackball where
  viewMatrix : M4
  projectionMatrix : M4
  viewport0 : ℝ
  viewport1 : ℝ
  viewport2 : ℝ
  viewport3 : ℝ
  zoom : ℝ
  rotating : Bool
  translating : Bool
  drawTrackball : Bool
  trackballProjectionMatrix : M4
  initialPosition : Vec3
  finalPosition : Vec3
  initialTranslationPosition : Vec2
  finalTranslationPosition : Vec2
  quaternion : Quat
  default_quaternion : Quat
  translationVector : Vec3
  defaultTranslation : Vec3
  radius : ℝ

namespace Camera

/-- Modelled from the spec: `Camera::resetViewMatrix` of the absent
Camera.hpp resets the maintained view matrix to the identity. -/
def resetViewMatrix (s : Trackball) : Trackball := { s with viewMatrix := 1 }

/-- Modelled from the spec: `Camera::rotate` of the absent Camera.hpp
left-multiplies the rotation matrix of the given quaternion into the
maintained view matrix. -/
def rotate (q : Quat) (s : Trackball) : Trackball :=
  { s with viewMatrix := rotM q * s.viewMatrix }

/-- Modelled from the spec: `Camera::translate` of the absent Camera.hpp
left-multiplies the translation matrix of the given vector into the
maintained view matrix. -/
def translate (v : Vec3) (s : Trackball) : Trackball :=
  { s with viewMatrix := transM v * s.viewMatrix }

/-- Modelled from the spec: `Camera::scale` of the absent Camera.hpp
left-multiplies the uniform scale matrix of the given factor into the
maintained view matrix. -/
def scale (c : ℝ) (s : Trackball) : Trackball :=
  { s with viewMatrix := scaleM c * s.viewMatrix }

/-- Modelled from the spec: the viewport rectangle `(x0,y0,x1,y1)` kept by
the absent Camera.hpp, used only to normalize screen coordinates. -/
def setViewport (a b c d : ℝ) (s : Trackball) : Trackball :=
  { s with viewport0 := a, viewport1 := b, viewport2 := c, viewport3 := d }

end Camera

namespace Trackball

/-- Embedding of `Trackball::computeSpherePosition`: height on the sphere
when inside the intersection circle, on the hyperbolic sheet otherwise. -/
def computeSpherePosition (s : Trackball) (pos : Vec2) : Vec3 :=
  let p := pos
  let r := s.radius
  let z : ℝ :=
    if p.x * p.x + p.y * p.y ≤ r * r / 2 then
      Real.sqrt (r * r - p.x * p.x - p.y * p.y)
    else
      r * r / (2 * Real.sqrt (p.x * p.x + p.y * p.y))
  ⟨p.x, p.y, z⟩

/-- Embedding of `Trackball::normalizePosition`: maps a screen position to
the [-1,1] range using the viewport, with the y axis flipped. -/
def normalizePosition (s : Trackball) (pos : Vec2) : Vec2 :=
  ⟨pos.x / ((s.viewport2 - s.viewport0) / 2) - 1,
    1 - pos.y / ((s.viewport3 - s.viewport1) / 2)⟩

/-- Embedding of `Trackball::updateViewMatrix`: reset the view matrix, then
apply default rotation, default translation, gesture rotation, gesture
translation, and zoom, through the camera primitives. -/
def updateViewMatrix (s : Trackball) : Trackball :=
  Camera.scale s.zoom
    (Camera.translate s.translationVector
      (Camera.rotate s.quaternion
        (Camera.translate s.defaultTranslation
          (Camera.rotate s.default_quaternion
            (Camera.resetViewMatrix s)))))

/-- Embedding of `Trackball::reset`: both quaternions to identity, zoom to 1,
translation to zero, both gesture flags cleared, then the view matrix is
reset and recomputed. -/
def reset (s : Trackball) : Trackball :=
  updateViewMatrix
    (Camera.resetViewMatrix
      { s with
        quaternion := 1
        default_quaternion := 1
        zoom := 1
        translationVector := 0
        rotating := false
        translating := false })

/-- Embedding of `Trackball::computeRotationAngle`: normalize the stored
initial and final positions (guarding zero norms), build the rotation axis
from their cross product (guarding a zero cross product), take the angle as
the arccosine of their dot product (guarding dot products above one),
compose the resulting quaternion into the accumulated one and renormalize. -/
def computeRotationAngle (s : Trackball) : Trackball :=
  let ip := if s.initialPosition.norm > 0 then s.initialPosition.normalized
            else s.initialPosition
  let fp := if s.finalPosition.norm > 0 then s.finalPosition.normalized
            else s.finalPosition
  let axis0 := ip.cross fp
  let axis := if axis0.norm ≠ 0 then axis0.normalized else axis0
  let d := ip.dot fp
  let angle := if d ≤ 1 then Real.arccos d else 0
  { s with
    initialPosition := ip
    finalPosition := fp
    quaternion := quatNormalize (quatOfAngleAxis angle axis * s.quaternion) }

/-- Embedding of `Trackball::computeTranslationVector`: the difference of the
stored translation positions, extended to 3D with z = 0, rotated by the
inverse of the accumulated quaternion and added to the translation vector. -/
def computeTranslationVector (s : Trackball) : Trackball :=
  let tf := s.finalTranslationPosition - s.initialTranslationPosition
  { s with
    translationVector :=
      s.translationVector + quatTransformVector s.quaternion⁻¹ ⟨tf.x, tf.y, 0⟩ }

/-- Embedding of `Trackball::rotateCamera`: begin a rotation gesture when the
flag is clear; otherwise, unless the raw input equals the first two
components of the stored initial position, store the new sphere position,
compose the incremental rotation, recompute the view matrix and advance the
initial position. -/
def rotateCamera (pos : Vec2) (s : Trackball) : Trackball :=
  let normalized_pos := computeSpherePosition s (normalizePosition s pos)
  if s.rotating = false then
    { s with rotating := true, initialPosition := normalized_pos }
  else if pos = s.initialPosition.head2 then s
  else
    let s1 := { s with finalPosition := normalized_pos }
    let s2 := computeRotationAngle s1
    let s3 := updateViewMatrix s2
    { s3 with initialPosition := s3.finalPosition }

/-- Embedding of `Trackball::translateCamera`: begin a translation gesture
when the flag is clear; otherwise, unless the raw input equals the first two
components of the stored initial ROTATION position (the guard of the source),
store the new normalized position, accumulate the translation, recompute the
view matrix and advance the initial translation position. -/
def translateCamera (pos : Vec2) (s : Trackball) : Trackball :=
  let normalized_pos := normalizePosition s pos
  if s.translating = false then
    { s with translating := true, initialTranslationPosition := normalized_pos }
  else if pos = s.initialPosition.head2 then s
  else
    let s1 := { s with finalTranslationPosition := normalized_pos }
    let s2 := computeTranslationVector s1
    let s3 := updateViewMatrix s2
    { s3 with initialTranslationPosition := s3.finalTranslationPosition }

/-- Embedding of `Trackball::endRotation`. -/
def endRotation (s : Trackball) : Trackball := { s with rotating := false }

/-- Embedding of `Trackball::endTranslation`. -/
def endTranslation (s : Trackball) : Trackball := { s with translating := false }

/-- Embedding of `Trackball::increaseZoom`: multiply the zoom factor and
recompute the view matrix. -/
def increaseZoom (c : ℝ) (s : Trackball) : Trackball :=
  updateViewMatrix { s with zoom := s.zoom * c }

/-- Embedding of `Trackball::decreaseZoom`: divide the zoom factor and
recompute the view matrix. -/
def decreaseZoom (c : ℝ) (s : Trackball) : Trackball :=
  updateViewMatrix { s with zoom := s.zoom / c }

/-- Embedding of `Trackball::applyScaleToViewMatrix`: overwrite the zoom
factor and recompute the view matrix. -/
def applyScaleToViewMatrix (c : ℝ) (s : Trackball) : Trackball :=
  updateViewMatrix { s with zoom := c }

/-- Embedding of `Trackball::translateViewMatrix`: add the given vector to
the translation accumulator (the source performs no view-matrix update). -/
def translateViewMatrix (v : Vec3) (s : Trackball) : Trackball :=
  { s with translationVector := s.translationVector + v }

/-- Embedding of `Trackball::rotateViewMatrix`: right-multiply the rotation
part of the given transform into the accumulated quaternion and renormalize
(the source performs no view-matrix update). The extraction of the rotation
part of the `Eigen::Affine3f` argument is modelled as being handed the
corresponding unit quaternion directly. -/
def rotateViewMatrix (r : Quat) (s : Trackball) : Trackball :=
  { s with quaternion := quatNormalize (s.quaternion * r) }

/-- Embedding of `Trackball::setDefaultTranslation`. -/
def setDefaultTranslation (t : Vec3) (s : Trackball) : Trackball :=
  { s with defaultTranslation := t }

/-- Embedding of `Trackball::setDefaultRotation`; the conversion of the
`Eigen::Matrix3f` argument to a quaternion is modelled as being handed the
corresponding quaternion directly. -/
def setDefaultRotation (r : Quat) (s : Trackball) : Trackball :=
  { s with default_quaternion := r }

/-- Embedding of `Trackball::setTrackballProjectionMatrix`. -/
def setTrackballProjectionMatrix (m : M4) (s : Trackball) : Trackball :=
  { s with trackballProjectionMatrix := m }

/-- Embedding of `Trackball::setRenderFlag`. -/
def setRenderFlag (b : Bool) (s : Trackball) : Trackball :=
  { s with drawTrackball := b }

/-- Embedding of `Trackball::initOpenGLMatrices`: reset, translate the view
matrix by the default translation, set the trackball projection matrix to
the identity. -/
def initOpenGLMatrices (s : Trackball) : Trackball :=
  let s1 := reset s
  { Camera.translate s1.defaultTranslation s1 with trackballProjectionMatrix := 1 }

/-- Embedding of the `Trackball` constructor: set the default translation to
(0,0,-4), zoom to 1, the render flag, the radius to 0.8, then
`initOpenGLMatrices` and `reset`. The argument carries the values of the
fields the constructor leaves uninitialized. -/
def construct (s : Trackball) : Trackball :=
  reset (initOpenGLMatrices
    { s with
      defaultTranslation := ⟨0, 0, -4⟩
      zoom := 1
      drawTrackball := true
      radius := 0.8 })

/-- Embedding of `Trackball::getViewMatrix` (inherited accessor). -/
def getViewMatrix (s : Trackball) : M4 := s.viewMatrix

/-- View-matrix composition of section 4.6 of the specification: scale times
gesture translation times gesture rotation times default translation times
default rotation, the rightmost factor applied first to a point. -/
def viewComposition (s : Trackball) : M4 :=
  scaleM s.zoom * transM s.translationVector * rotM s.quaternion *
    transM s.defaultTranslation * rotM s.default_quaternion

/-- States reachable by a session: a freshly constructed controller followed
by any sequence of public operations. -/
inductive Reachable : Trackball → Prop
  | init (s : Trackball) : Reachable (construct s)
  | step_reset {s : Trackball} : Reachable s → Reachable (reset s)
  | step_rotateCamera {s : Trackball} (p : Vec2) :
      Reachable s → Reachable (rotateCamera p s)
  | step_translateCamera {s : Trackball} (p : Vec2) :
      Reachable s → Reachable (translateCamera p s)
  | step_endRotation {s : Trackball} : Reachable s → Reachable (endRotation s)
  | step_endTranslation {s : Trackball} :
      Reachable s → Reachable (endTranslation s)
  | step_increaseZoom {s : Trackball} (c : ℝ) :
      Reachable s → Reachable (increaseZoom c s)
  | step_decreaseZoom {s : Trackball} (c : ℝ) :
      Reachable s → Reachable (decreaseZoom c s)
  | step_applyScale {s : Trackball} (c : ℝ) :
      Reachable s → Reachable (applyScaleToViewMatrix c s)
  | step_translateVM {s : Trackball} (v : Vec3) :
      Reachable s → Reachable (translateViewMatrix v s)
  | step_rotateVM {s : Trackball} (r : Quat) (hr : ‖r‖ = 1) :
      Reachable s → Reachable (rotateViewMatrix r s)
  | step_setDefaultTranslation {s : Trackball} (t : Vec3) :
      Reachable s → Reachable (setDefaultTranslation t s)
  | step_setDefaultRotation {s : Trackball} (r : Quat) :
      Reachable s → Reachable (setDefaultRotation r s)
  | step_setTrackballProjectionMatrix {s : Trackball} (m : M4) :
      Reachable s → Reachable (setTrackballProjectionMatrix m s)
  | step_setRenderFlag {s : Trackball} (b : Bool) :
      Reachable s → Reachable (setRenderFlag b s)
  | step_setViewport {s : Trackball} (a b c d : ℝ) :
      Reachable s → Reachable (Camera.setViewport a b c d s)
  | step_initOpenGLMatrices {s : Trackball} :
      Reachable s → Reachable (initOpenGLMatrices s)

end Trackball

/-- Concrete controller state with every field at the constructor defaults
and viewport (0,0,800,600); used as the base point of concrete scenarios. -/
def sampleState : Trackball where
  viewMatrix := transM ⟨0, 0, -4⟩
  projectionMatrix := 1
  viewport0 := 0
  viewport1 := 0
  viewport2 := 800
  viewport3 := 600
  zoom := 1
  rotating := false
  translating := false
  drawTrackball := true
  trackballProjectionMatrix := 1
  initialPosition := ⟨0, 0, 0.8⟩
  finalPosition := ⟨0, 0, 0.8⟩
  initialTranslationPosition := ⟨0, 0⟩
  finalTranslationPosition := ⟨0, 0⟩
  quaternion := 1
  default_quaternion := 1
  translationVector := 0
  defaultTranslation := ⟨0, 0, -4⟩
  radius := 0.8

/-- Concrete state with an active translation gesture whose reference sample
is (0,0), while the rotation reference sample holds first two components
(600,300). -/
def translatingState : Trackball :=
  { sampleState with
    translating := true
    initialPosition := ⟨600, 300, 0.01⟩
    initialTranslationPosition := ⟨0, 0⟩ }

/-- State of the concrete rotation scenario right after the begin call:
rotation active with reference surface point (0,0,0.8). -/
def scenarioBegun : Trackball :=
  { sampleState with rotating := true, initialPosition := ⟨0, 0, 0.8⟩ }

namespace Vec3

theorem normSq_nonneg (v : Vec3) : 0 ≤ v.normSq := by
  unfold normSq; positivity

theorem norm_nonneg3 (v : Vec3) : 0 ≤ v.norm := Real.sqrt_nonneg _

theorem sq_norm (v : Vec3) : v.norm ^ 2 = v.normSq :=
  Real.sq_sqrt v.normSq_nonneg

theorem norm_pos_of_z_pos {v : Vec3} (h : 0 < v.z) : 0 < v.norm := by
  rw [norm, Real.sqrt_pos]
  unfold normSq
  nlinarith [sq_nonneg v.x, sq_nonneg v.y]

theorem normSq_eq_zero_of_norm_eq_zero {v : Vec3} (h : v.norm = 0) :
    v.normSq = 0 := by
  have h2 := v.sq_norm
  rw [h] at h2
  simpa using h2.symm

theorem eq_zero_of_norm_eq_zero {v : Vec3} (h : v.norm = 0) :
    v = ⟨0, 0, 0⟩ := by
  have h2 := normSq_eq_zero_of_norm_eq_zero h
  obtain ⟨a, b, c⟩ := v
  unfold normSq at h2
  dsimp at h2
  have ha : a = 0 := by nlinarith [sq_nonneg a, sq_nonneg b, sq_nonneg c]
  have hb : b = 0 := by nlinarith [sq_nonneg a, sq_nonneg b, sq_nonneg c]
  have hc : c = 0 := by nlinarith [sq_nonneg a, sq_nonneg b, sq_nonneg c]
  rw [ha, hb, hc]

theorem normalized_normSq {v : Vec3} (h : v.norm ≠ 0) :
    v.normalized.normSq = 1 := by
  have hcalc : v.normalized.normSq = (1 / v.norm) ^ 2 * v.normSq := by
    unfold normalized smul normSq
    dsimp
    ring
  rw [hcalc, ← v.sq_norm]
  field_simp

theorem normalized_norm {v : Vec3} (h : v.norm ≠ 0) : v.normalized.norm = 1 := by
  rw [norm, normalized_normSq h, Real.sqrt_one]

theorem normalized_z (v : Vec3) : v.normalized.z = 1 / v.norm * v.z := rfl

theorem normalized_z_pos {v : Vec3} (h : 0 < v.z) : 0 < v.normalized.z := by
  rw [normalized_z]
  have hn := norm_pos_of_z_pos h
  positivity

theorem normalized_of_norm_one {v : Vec3} (h : v.norm = 1) :
    v.normalized = v := by
  unfold normalized smul
  rw [h]
  obtain ⟨a, b, c⟩ := v
  simp

theorem lagrange (u v : Vec3) :
    (u.cross v).normSq + (u.dot v) ^ 2 = u.normSq * v.normSq := by
  unfold cross dot normSq
  dsimp
  ring

theorem cross_self (v : Vec3) : v.cross v = ⟨0, 0, 0⟩ := by
  unfold cross
  simp [mul_comm]

theorem dot_self (v : Vec3) : v.dot v = v.normSq := by
  unfold dot normSq
  ring

theorem norm_zero3 : (⟨0, 0, 0⟩ : Vec3).norm = 0 := by
  unfold norm normSq
  norm_num

end Vec3

theorem quat_norm_eq_one_of_normSq {q : Quat} (h : Quaternion.normSq q = 1) :
    ‖q‖ = 1 := by
  have h1 : ‖q‖ * ‖q‖ = 1 := by rw [← Quaternion.normSq_eq_norm_mul_self, h]
  nlinarith [norm_nonneg q]

theorem quatOfAngleAxis_normSq (θ : ℝ) (a : Vec3) (ha : a.normSq = 1) :
    Quaternion.normSq (quatOfAngleAxis θ a) = 1 := by
  have ha2 : a.x ^ 2 + a.y ^ 2 + a.z ^ 2 = 1 := ha
  rw [Quaternion.normSq_def']
  show Real.cos (θ / 2) ^ 2 + (Real.sin (θ / 2) * a.x) ^ 2 +
      (Real.sin (θ / 2) * a.y) ^ 2 + (Real.sin (θ / 2) * a.z) ^ 2 = 1
  have hsc := Real.sin_sq_add_cos_sq (θ / 2)
  linear_combination hsc + Real.sin (θ / 2) ^ 2 * ha2

theorem quatOfAngleAxis_arccos_one : quatOfAngleAxis (Real.arccos 1) ⟨0, 0, 0⟩ = 1 := by
  unfold quatOfAngleAxis
  rw [Real.arccos_one]
  apply Quaternion.ext <;> simp

theorem quatNormalize_of_norm_one {q : Quat} (h : ‖q‖ = 1) :
    quatNormalize q = q := by
  unfold quatNormalize
  rw [h]
  simp

theorem quatNormalize_norm_one {q : Quat} (h : ‖q‖ = 1) :
    ‖quatNormalize q‖ = 1 := by
  rw [quatNormalize_of_norm_one h, h]

namespace Trackball

theorem computeSpherePosition_z_pos (s : Trackball) (p : Vec2)
    (hr : 0 < s.radius) : 0 < (s.computeSpherePosition p).z := by
  unfold computeSpherePosition
  dsimp only
  split
  · rename_i h
    apply Real.sqrt_pos.mpr
    nlinarith [mul_pos hr hr]
  · rename_i h
    push_neg at h
    have h1 : 0 < p.x * p.x + p.y * p.y := by nlinarith [mul_pos hr hr]
    have h2 : 0 < Real.sqrt (p.x * p.x + p.y * p.y) := Real.sqrt_pos.mpr h1
    have h3 : 0 < s.radius * s.radius := mul_pos hr hr
    positivity

theorem computeRotationAngle_initialPosition (s : Trackball) :
    (computeRotationAngle s).initialPosition =
      if s.initialPosition.norm > 0 then s.initialPosition.normalized
      else s.initialPosition := rfl

theorem computeRotationAngle_finalPosition (s : Trackball) :
    (computeRotationAngle s).finalPosition =
      if s.finalPosition.norm > 0 then s.finalPosition.normalized
      else s.finalPosition := rfl

theorem computeRotationAngle_norm (s : Trackball)
    (hip : 0 < s.initialPosition.z) (hfp : 0 < s.finalPosition.z)
    (hq : ‖s.quaternion‖ = 1) :
    ‖(computeRotationAngle s).quaternion‖ = 1 := by
  have hipn : s.initialPosition.norm > 0 := Vec3.norm_pos_of_z_pos hip
  have hfpn : s.finalPosition.norm > 0 := Vec3.norm_pos_of_z_pos hfp
  unfold computeRotationAngle
  dsimp only
  rw [if_pos hipn, if_pos hfpn]
  set ip := s.initialPosition.normalized with hipdef
  set fp := s.finalPosition.normalized with hfpdef
  have hipns : ip.normSq = 1 := Vec3.normalized_normSq (ne_of_gt hipn)
  have hfpns : fp.normSq = 1 := Vec3.normalized_normSq (ne_of_gt hfpn)
  have hipz : 0 < ip.z := Vec3.normalized_z_pos hip
  have hfpz : 0 < fp.z := Vec3.normalized_z_pos hfp
  have hdelta : ‖quatOfAngleAxis
      (if ip.dot fp ≤ 1 then Real.arccos (ip.dot fp) else 0)
      (if (ip.cross fp).norm ≠ 0 then (ip.cross fp).normalized
       else ip.cross fp)‖ = 1 := by
    by_cases hax : (ip.cross fp).norm ≠ 0
    · rw [if_pos hax]
      exact quat_norm_eq_one_of_normSq
        (quatOfAngleAxis_normSq _ _ (Vec3.normalized_normSq hax))
    · push_neg at hax
      have hc0 : ip.cross fp = ⟨0, 0, 0⟩ := Vec3.eq_zero_of_norm_eq_zero hax
      have hcns : (ip.cross fp).normSq = 0 := by
        rw [hc0]; unfold Vec3.normSq; norm_num
      have hipns2 : ip.x ^ 2 + ip.y ^ 2 + ip.z ^ 2 = 1 := hipns
      have hfpns2 : fp.x ^ 2 + fp.y ^ 2 + fp.z ^ 2 = 1 := hfpns
      have hdot : ip.dot fp = 1 := by
        have hl := Vec3.lagrange ip fp
        rw [hcns, hipns, hfpns] at hl
        have h2 : (ip.dot fp) ^ 2 = 1 := by linarith
        have h3 : (ip.dot fp - 1) * (ip.dot fp + 1) = 0 := by nlinarith
        rcases mul_eq_zero.mp h3 with h4 | h4
        · linarith
        · exfalso
          have hd2 : ip.x * fp.x + ip.y * fp.y + ip.z * fp.z = -1 := by
            have : ip.dot fp = -1 := by linarith
            exact this
          have hz : (ip.x + fp.x) ^ 2 + (ip.y + fp.y) ^ 2 +
              (ip.z + fp.z) ^ 2 = 0 := by
            linear_combination hipns2 + hfpns2 + 2 * hd2
          nlinarith [sq_nonneg (ip.x + fp.x), sq_nonneg (ip.y + fp.y),
            mul_pos (add_pos hipz hfpz) (add_pos hipz hfpz)]
      rw [if_neg (not_not_intro hax), hc0, hdot, if_pos (le_refl (1 : ℝ))]
      rw [quatOfAngleAxis_arccos_one]
      exact norm_one
  have hmul : ‖quatOfAngleAxis
      (if ip.dot fp ≤ 1 then Real.arccos (ip.dot fp) else 0)
      (if (ip.cross fp).norm ≠ 0 then (ip.cross fp).normalized
       else ip.cross fp) * s.quaternion‖ = 1 := by
    rw [norm_mul, hdelta, hq, one_mul]
  exact quatNormalize_norm_one hmul

theorem rotM_one : rotM 1 = 1 := by
  ext i j
  fin_cases i <;> fin_cases j <;>
    simp [rotM, Matrix.one_apply, Matrix.vecHead, Matrix.vecTail]

theorem transM_zero : transM 0 = 1 := by
  ext i j
  have h0 : (0 : Vec3) = ⟨0, 0, 0⟩ := rfl
  fin_cases i <;> fin_cases j <;>
    simp [transM, Matrix.one_apply, h0, Matrix.vecHead, Matrix.vecTail]

theorem scaleM_one : scaleM 1 = 1 := by
  ext i j
  fin_cases i <;> fin_cases j <;>
    simp [scaleM, Matrix.one_apply, Matrix.vecHead, Matrix.vecTail]

theorem updateViewMatrix_eq (s : Trackball) :
    updateViewMatrix s = { s with viewMatrix := viewComposition s } := by
  cases s
  simp only [updateViewMatrix, viewComposition, Camera.scale, Camera.translate,
    Camera.rotate, Camera.resetViewMatrix, mul_one, mul_assoc]

theorem reset_eq (s : Trackball) :
    reset s = { s with
      quaternion := 1
      default_quaternion := 1
      zoom := 1
      translationVector := 0
      rotating := false
      translating := false
      viewMatrix := transM s.defaultTranslation } := by
  cases s
  simp only [reset, updateViewMatrix, Camera.scale, Camera.translate,
    Camera.rotate, Camera.resetViewMatrix, rotM_one, transM_zero, scaleM_one,
    one_mul, mul_one]

theorem rotateCamera_begin {p : Vec2} {t : Trackball} (h : t.rotating = false) :
    rotateCamera p t =
      { t with
        rotating := true
        initialPosition := computeSpherePosition t (normalizePosition t p) } := by
  simp only [rotateCamera]
  rw [if_pos h]

theorem rotateCamera_skip {p : Vec2} {t : Trackball} (h1 : t.rotating = true)
    (h2 : p = t.initialPosition.head2) : rotateCamera p t = t := by
  simp only [rotateCamera]
  rw [if_neg (by simp [h1]), if_pos h2]

theorem rotateCamera_update {p : Vec2} {t : Trackball} (h1 : t.rotating = true)
    (h2 : ¬ p = t.initialPosition.head2) :
    rotateCamera p t =
      { updateViewMatrix (computeRotationAngle
          { t with finalPosition := computeSpherePosition t (normalizePosition t p) }) with
        initialPosition := (computeRotationAngle
          { t with finalPosition := computeSpherePosition t (normalizePosition t p) }).finalPosition } := by
  simp only [rotateCamera]
  rw [if_neg (by simp [h1]), if_neg h2]
  rfl

theorem translateCamera_begin {p : Vec2} {t : Trackball} (h : t.translating = false) :
    translateCamera p t =
      { t with
        translating := true
        initialTranslationPosition := normalizePosition t p } := by
  simp only [translateCamera]
  rw [if_pos h]

theorem translateCamera_skip {p : Vec2} {t : Trackball} (h1 : t.translating = true)
    (h2 : p = t.initialPosition.head2) : translateCamera p t = t := by
  simp only [translateCamera]
  rw [if_neg (by simp [h1]), if_pos h2]

theorem translateCamera_update {p : Vec2} {t : Trackball} (h1 : t.translating = true)
    (h2 : ¬ p = t.initialPosition.head2) :
    translateCamera p t =
      { updateViewMatrix (computeTranslationVector
          { t with finalTranslationPosition := normalizePosition t p }) with
        initialTranslationPosition := (computeTranslationVector
          { t with finalTranslationPosition := normalizePosition t p }).finalTranslationPosition } := by
  simp only [translateCamera]
  rw [if_neg (by simp [h1]), if_neg h2]
  rfl

theorem computeRotationAngle_id {t : Trackball}
    (hip : t.initialPosition = t.finalPosition.normalized)
    (hfz : 0 < t.finalPosition.z) (hq : ‖t.quaternion‖ = 1) :
    (computeRotationAngle t).quaternion = t.quaternion := by
  have hfn : t.finalPosition.norm > 0 := Vec3.norm_pos_of_z_pos hfz
  have hfne : t.finalPosition.norm ≠ 0 := ne_of_gt hfn
  have hu1 : t.finalPosition.normalized.norm = 1 := Vec3.normalized_norm hfne
  have hipn : t.initialPosition.norm > 0 := by rw [hip, hu1]; norm_num
  have hips : t.initialPosition.normalized = t.finalPosition.normalized := by
    rw [hip]
    exact Vec3.normalized_of_norm_one hu1
  have hcross : t.initialPosition.normalized.cross t.finalPosition.normalized
      = ⟨0, 0, 0⟩ := by
    rw [hips]
    exact Vec3.cross_self _
  have hcn : (t.initialPosition.normalized.cross t.finalPosition.normalized).norm
      = 0 := by
    rw [hcross]
    exact Vec3.norm_zero3
  have hdot : t.initialPosition.normalized.dot t.finalPosition.normalized = 1 := by
    rw [hips, Vec3.dot_self]
    exact Vec3.normalized_normSq hfne
  unfold computeRotationAngle
  dsimp only
  rw [if_pos hipn, if_pos hfn, if_neg (not_not_intro hcn), hcross, hdot,
    if_pos (le_refl (1 : ℝ)), quatOfAngleAxis_arccos_one, one_mul,
    quatNormalize_of_norm_one hq]

theorem spherePos_congr {a b : Trackball} (hr : a.radius = b.radius)
    (h0 : a.viewport0 = b.viewport0) (h1 : a.viewport1 = b.viewport1)
    (h2 : a.viewport2 = b.viewport2) (h3 : a.viewport3 = b.viewport3)
    (p : Vec2) :
    computeSpherePosition a (normalizePosition a p) =
      computeSpherePosition b (normalizePosition b p) := by
  unfold computeSpherePosition normalizePosition
  rw [hr, h0, h1, h2, h3]

theorem rotateCamera_config (p : Vec2) (t : Trackball) :
    (rotateCamera p t).radius = t.radius ∧
    (rotateCamera p t).viewport0 = t.viewport0 ∧
    (rotateCamera p t).viewport1 = t.viewport1 ∧
    (rotateCamera p t).viewport2 = t.viewport2 ∧
    (rotateCamera p t).viewport3 = t.viewport3 := by
  simp only [rotateCamera]
  split
  · exact ⟨rfl, rfl, rfl, rfl, rfl⟩
  · split
    · exact ⟨rfl, rfl, rfl, rfl, rfl⟩
    · exact ⟨rfl, rfl, rfl, rfl, rfl⟩

theorem construct_eq (s : Trackball) :
    construct s = { s with
      quaternion := 1
      default_quaternion := 1
      zoom := 1
      translationVector := 0
      rotating := false
      translating := false
      drawTrackball := true
      radius := 0.8
      defaultTranslation := ⟨0, 0, -4⟩
      trackballProjectionMatrix := 1
      viewMatrix := transM ⟨0, 0, -4⟩ } := by
  cases s
  simp only [construct, initOpenGLMatrices, reset_eq, Camera.translate]

/-- Invariant maintained by every reachable state: the accumulated quaternion
is unit, the radius is 0.8, and while a rotation gesture is active the stored
initial position has positive z (it is a sphere or hyperboloid point, or a
normalization of one). -/
theorem reachable_invariant {s : Trackball} (h : Reachable s) :
    ‖s.quaternion‖ = 1 ∧ s.radius = 0.8 ∧
      (s.rotating = true → 0 < s.initialPosition.z) := by
  induction h with
  | init s =>
      refine ⟨?_, ?_, ?_⟩ <;>
        simp [construct, initOpenGLMatrices, reset, updateViewMatrix,
          Camera.translate, Camera.rotate, Camera.scale, Camera.resetViewMatrix]
  | step_reset a ih =>
      refine ⟨?_, ?_, ?_⟩ <;>
        simp [reset, updateViewMatrix, Camera.translate, Camera.rotate,
          Camera.scale, Camera.resetViewMatrix, ih.2.1]
  | step_rotateCamera p a ih =>
      rename_i s
      obtain ⟨hq, hrad, hrot⟩ := ih
      by_cases h1 : s.rotating = false
      · simp only [rotateCamera]
        rw [if_pos h1]
        refine ⟨hq, hrad, fun _ => ?_⟩
        exact computeSpherePosition_z_pos s _ (by rw [hrad]; norm_num)
      · have h1t : s.rotating = true := by
          revert h1; cases s.rotating <;> simp
        by_cases h2 : p = s.initialPosition.head2
        · simp only [rotateCamera]
          rw [if_neg h1, if_pos h2]
          exact ⟨hq, hrad, hrot⟩
        · have hipz : 0 < s.initialPosition.z := hrot h1t
          have hnp : 0 < (s.computeSpherePosition (s.normalizePosition p)).z :=
            computeSpherePosition_z_pos s _ (by rw [hrad]; norm_num)
          simp only [rotateCamera]
          rw [if_neg h1, if_neg h2]
          refine ⟨?_, hrad, fun _ => ?_⟩
          · exact computeRotationAngle_norm
              { s with finalPosition := s.computeSpherePosition (s.normalizePosition p) }
              hipz hnp hq
          · show 0 < (computeRotationAngle
              { s with finalPosition := s.computeSpherePosition (s.normalizePosition p) }).finalPosition.z
            rw [computeRotationAngle_finalPosition]
            dsimp only
            rw [if_pos (Vec3.norm_pos_of_z_pos hnp)]
            exact Vec3.normalized_z_pos hnp
  | step_translateCamera p a ih =>
      rename_i s
      obtain ⟨hq, hrad, hrot⟩ := ih
      have he : (translateCamera p s).quaternion = s.quaternion ∧
          (translateCamera p s).radius = s.radius ∧
          (translateCamera p s).rotating = s.rotating ∧
          (translateCamera p s).initialPosition = s.initialPosition := by
        simp only [translateCamera]
        split
        · exact ⟨rfl, rfl, rfl, rfl⟩
        · split
          · exact ⟨rfl, rfl, rfl, rfl⟩
          · exact ⟨rfl, rfl, rfl, rfl⟩
      obtain ⟨e1, e2, e3, e4⟩ := he
      rw [e1, e2, e3, e4]
      exact ⟨hq, hrad, hrot⟩
  | step_endRotation a ih =>
      refine ⟨ih.1, ih.2.1, ?_⟩
      intro hcon
      simp [endRotation] at hcon
  | step_endTranslation a ih =>
      exact ⟨ih.1, ih.2.1, ih.2.2⟩
  | step_increaseZoom c a ih =>
      exact ⟨ih.1, ih.2.1, ih.2.2⟩
  | step_decreaseZoom c a ih =>
      exact ⟨ih.1, ih.2.1, ih.2.2⟩
  | step_applyScale c a ih =>
      exact ⟨ih.1, ih.2.1, ih.2.2⟩
  | step_translateVM v a ih =>
      exact ⟨ih.1, ih.2.1, ih.2.2⟩
  | step_rotateVM r hr a ih =>
      rename_i s
      refine ⟨?_, ih.2.1, ih.2.2⟩
      have hmul : ‖s.quaternion * r‖ = 1 := by
        rw [norm_mul, ih.1, hr, one_mul]
      exact quatNormalize_norm_one hmul
  | step_setDefaultTranslation t a ih =>
      exact ⟨ih.1, ih.2.1, ih.2.2⟩
  | step_setDefaultRotation r a ih =>
      exact ⟨ih.1, ih.2.1, ih.2.2⟩
  | step_setTrackballProjectionMatrix m a ih =>
      exact ⟨ih.1, ih.2.1, ih.2.2⟩
  | step_setRenderFlag b a ih =>
      exact ⟨ih.1, ih.2.1, ih.2.2⟩
  | step_setViewport a b c d h ih =>
      exact ⟨ih.1, ih.2.1, ih.2.2⟩
  | step_initOpenGLMatrices a ih =>
      refine ⟨?_, ?_, ?_⟩ <;>
        simp [initOpenGLMatrices, reset, updateViewMatrix, Camera.translate,
          Camera.rotate, Camera.scale, Camera.resetViewMatrix, ih.2.1]

end Trackball

/-- C1: updateViewMatrix recomputes the view matrix from scratch on every
call as exactly the composition identity, then rotation by the default
quaternion, then translation by the default translation, then rotation by
the accumulated quaternion, then translation by the accumulated vector,
then uniform scale by the zoom factor (rightmost factor applied first to a
point), for every controller state, and changes no other field. -/
theorem claim_c1_update_view_matrix_composition (s : Trackball) :
    Trackball.updateViewMatrix s =
      { s with viewMatrix :=
          scaleM s.zoom * transM s.translationVector * rotM s.quaternion *
            transM s.defaultTranslation * rotM s.default_quaternion * (1 : M4) } := by
  rw [Trackball.updateViewMatrix_eq]
  have h : Trackball.viewComposition s =
      scaleM s.zoom * transM s.translationVector * rotM s.quaternion *
        transM s.defaultTranslation * rotM s.default_quaternion * (1 : M4) := by
    rw [mul_one]
    rfl
  rw [h]

/-- C2 (amended): reset restores the gesture-driven state and also the
default orientation to the defaults (identity quaternions, zero translation,
unit zoom, both gesture flags cleared), recomputes the view matrix, and
leaves the viewport, the default translation and both projection matrices
unchanged. -/
theorem claim_c2_reset_restores_defaults (s : Trackball) :
    Trackball.reset s = { s with
      quaternion := 1
      default_quaternion := 1
      zoom := 1
      translationVector := 0
      rotating := false
      translating := false
      viewMatrix := transM s.defaultTranslation } :=
  Trackball.reset_eq s

/-- C2 counterexample: reset does not leave the default orientation
unchanged; from a state whose default quaternion is the 180 degree rotation
about the x axis, reset returns the default quaternion to the identity. -/
theorem claim_c2_counterexample :
    (Trackball.reset
        { sampleState with default_quaternion := ⟨0, 1, 0, 0⟩ }).default_quaternion ≠
      ({ sampleState with
          default_quaternion := (⟨0, 1, 0, 0⟩ : Quat) }).default_quaternion := by
  rw [Trackball.reset_eq]
  intro h
  have h2 := congrArg Quaternion.re h
  simp at h2

/-- C4: for every state (hence every radius) and every normalized position,
computeSpherePosition returns the input coordinates with a height given by
the sphere equation when the squared distance is at most half the squared
radius, and by the hyperbolic sheet equation otherwise; the output is the
unnormalized point (p.x, p.y, z). -/
theorem claim_c4_sphere_position (s : Trackball) (p : Vec2) :
    Trackball.computeSpherePosition s p =
      ⟨p.x, p.y,
        if p.x ^ 2 + p.y ^ 2 ≤ s.radius ^ 2 / 2 then
          Real.sqrt (s.radius ^ 2 - p.x ^ 2 - p.y ^ 2)
        else s.radius ^ 2 / (2 * Real.sqrt (p.x ^ 2 + p.y ^ 2))⟩ := by
  unfold Trackball.computeSpherePosition
  simp only [pow_two]

/-- C5: every reachable controller state carries a unit accumulated
quaternion, in exact arithmetic. -/
theorem claim_c5_unit_quaternion {s : Trackball} (h : Trackball.Reachable s) :
    ‖s.quaternion‖ = 1 :=
  (Trackball.reachable_invariant h).1

/-- C5 witness: the freshly constructed controller state is reachable and
its quaternion has norm one. -/
theorem claim_c5_witness : ‖(Trackball.construct sampleState).quaternion‖ = 1 :=
  claim_c5_unit_quaternion (Trackball.Reachable.init sampleState)

/-- C8 (amended): a rotateCamera or translateCamera call while the
corresponding gesture flag is idle is not an error and not a full no-op: it
begins the gesture, setting the flag and storing the reference sample, and
leaves the accumulators and the view matrix unchanged. -/
theorem claim_c8_idle_update_begins (s : Trackball) (p : Vec2) :
    (s.rotating = false →
      Trackball.rotateCamera p s = { s with
        rotating := true
        initialPosition :=
          Trackball.computeSpherePosition s (Trackball.normalizePosition s p) }) ∧
    (s.translating = false →
      Trackball.translateCamera p s = { s with
        translating := true
        initialTranslationPosition := Trackball.normalizePosition s p }) :=
  ⟨fun h => Trackball.rotateCamera_begin h, fun h => Trackball.translateCamera_begin h⟩

/-- C8 witness: from the concrete default state with both flags idle,
rotateCamera begins the rotation gesture. -/
theorem claim_c8_witness :
    Trackball.rotateCamera ⟨400, 300⟩ sampleState = { sampleState with
      rotating := true
      initialPosition := Trackball.computeSpherePosition sampleState
        (Trackball.normalizePosition sampleState ⟨400, 300⟩) } :=
  (claim_c8_idle_update_begins sampleState ⟨400, 300⟩).1 rfl

/-- C8 counterexample: a stray rotateCamera while the rotation flag is idle
is not a silent no-op; it changes the state (the flag becomes active). -/
theorem claim_c8_counterexample :
    Trackball.rotateCamera ⟨400, 300⟩ sampleState ≠ sampleState := by
  intro h
  have h2 := congrArg Trackball.rotating h
  rw [Trackball.rotateCamera_begin rfl] at h2
  simp [sampleState] at h2

/-- C3 (code evaluated at the failing input): with a translation gesture
active, translation reference sample (0,0) and viewport (0,0,800,600), the
input (600,300) normalizes to (0.5,0), which differs from the translation
reference, yet translateCamera skips the update entirely (state unchanged),
because its guard compares the raw input against the first two components
of the rotation reference sample initialPosition instead. -/
theorem claim_c3_translation_guard_bug :
    Trackball.normalizePosition translatingState ⟨600, 300⟩ = ⟨0.5, 0⟩ ∧
    Trackball.normalizePosition translatingState ⟨600, 300⟩ ≠
      translatingState.initialTranslationPosition ∧
    Trackball.translateCamera ⟨600, 300⟩ translatingState = translatingState := by
  have h1 : Trackball.normalizePosition translatingState ⟨600, 300⟩ = ⟨0.5, 0⟩ := by
    unfold Trackball.normalizePosition translatingState sampleState
    dsimp only
    norm_num [Vec2.mk.injEq]
  refine ⟨h1, ?_, ?_⟩
  · rw [h1]
    intro hcon
    have h2 := congrArg Vec2.x hcon
    norm_num [translatingState, sampleState] at h2
  · exact Trackball.translateCamera_skip rfl rfl

/-- C6: with a rotation gesture active in a reachable state, calling
rotateCamera twice in succession with the same position changes the
accumulated quaternion only on the first call: the second call leaves the
quaternion exactly unchanged. -/
theorem claim_c6_second_update_noop {s : Trackball} (h : Trackball.Reachable s)
    (hrot : s.rotating = true) (p : Vec2) :
    (Trackball.rotateCamera p (Trackball.rotateCamera p s)).quaternion =
      (Trackball.rotateCamera p s).quaternion := by
  obtain ⟨hq, hrad, hips⟩ := Trackball.reachable_invariant h
  have hradp : 0 < s.radius := by rw [hrad]; norm_num
  by_cases h2 : p = s.initialPosition.head2
  · rw [Trackball.rotateCamera_skip hrot h2, Trackball.rotateCamera_skip hrot h2]
  · obtain ⟨hq1, -, -⟩ :=
      Trackball.reachable_invariant (Trackball.Reachable.step_rotateCamera p h)
    have hnpz : 0 < (Trackball.computeSpherePosition s
        (Trackball.normalizePosition s p)).z :=
      Trackball.computeSpherePosition_z_pos s _ hradp
    have hro1 : (Trackball.rotateCamera p s).rotating = true := by
      rw [Trackball.rotateCamera_update hrot h2]
      exact hrot
    have hip1 : (Trackball.rotateCamera p s).initialPosition =
        (Trackball.computeSpherePosition s
          (Trackball.normalizePosition s p)).normalized := by
      rw [Trackball.rotateCamera_update hrot h2]
      dsimp only
      rw [Trackball.computeRotationAngle_finalPosition]
      dsimp only
      rw [if_pos (Vec3.norm_pos_of_z_pos hnpz)]
    obtain ⟨hcr, hc0, hc1, hc2, hc3⟩ := Trackball.rotateCamera_config p s
    have hnp12 : Trackball.computeSpherePosition (Trackball.rotateCamera p s)
        (Trackball.normalizePosition (Trackball.rotateCamera p s) p) =
        Trackball.computeSpherePosition s (Trackball.normalizePosition s p) :=
      Trackball.spherePos_congr hcr hc0 hc1 hc2 hc3 p
    by_cases h3 : p = (Trackball.rotateCamera p s).initialPosition.head2
    · rw [Trackball.rotateCamera_skip hro1 h3]
    · rw [Trackball.rotateCamera_update hro1 h3]
      dsimp only
      apply Trackball.computeRotationAngle_id
      · dsimp only
        rw [hnp12, hip1]
      · dsimp only
        rw [hnp12]
        exact hnpz
      · exact hq1

/-- C6 witness: a concrete reachable state with an active rotation gesture
at which the second identical update leaves the quaternion unchanged. -/
theorem claim_c6_witness :
    (Trackball.rotateCamera ⟨600, 300⟩ (Trackball.rotateCamera ⟨600, 300⟩
        (Trackball.rotateCamera ⟨400, 300⟩
          (Trackball.construct sampleState)))).quaternion =
      (Trackball.rotateCamera ⟨600, 300⟩
        (Trackball.rotateCamera ⟨400, 300⟩
          (Trackball.construct sampleState))).quaternion :=
  claim_c6_second_update_noop
    (Trackball.Reachable.step_rotateCamera ⟨400, 300⟩
      (Trackball.Reachable.init sampleState)) rfl ⟨600, 300⟩

/-- C7 (amended): the zoom operations and the gesture update branches of
rotateCamera and translateCamera recompute the view matrix eagerly, so that
after them the stored view matrix equals the composition of the new state;
but translateViewMatrix and rotateViewMatrix only mutate their accumulator
and leave the stored view matrix untouched, stale until the next
recomputation. -/
theorem claim_c7_eager_recompute_except_direct_mutators
    (s : Trackball) (c : ℝ) (p : Vec2) (v : Vec3) (r : Quat) :
    (Trackball.increaseZoom c s).viewMatrix =
      Trackball.viewComposition (Trackball.increaseZoom c s) ∧
    (Trackball.decreaseZoom c s).viewMatrix =
      Trackball.viewComposition (Trackball.decreaseZoom c s) ∧
    (Trackball.applyScaleToViewMatrix c s).viewMatrix =
      Trackball.viewComposition (Trackball.applyScaleToViewMatrix c s) ∧
    (s.rotating = true → ¬ p = s.initialPosition.head2 →
      (Trackball.rotateCamera p s).viewMatrix =
        Trackball.viewComposition (Trackball.rotateCamera p s)) ∧
    (s.translating = true → ¬ p = s.initialPosition.head2 →
      (Trackball.translateCamera p s).viewMatrix =
        Trackball.viewComposition (Trackball.translateCamera p s)) ∧
    Trackball.translateViewMatrix v s =
      { s with translationVector := s.translationVector + v } ∧
    Trackball.rotateViewMatrix r s =
      { s with quaternion := quatNormalize (s.quaternion * r) } := by
  refine ⟨?_, ?_, ?_, ?_, ?_, rfl, rfl⟩
  · show (Trackball.updateViewMatrix { s with zoom := s.zoom * c }).viewMatrix = _
    rw [Trackball.updateViewMatrix_eq]
    rfl
  · show (Trackball.updateViewMatrix { s with zoom := s.zoom / c }).viewMatrix = _
    rw [Trackball.updateViewMatrix_eq]
    rfl
  · show (Trackball.updateViewMatrix { s with zoom := c }).viewMatrix = _
    rw [Trackball.updateViewMatrix_eq]
    rfl
  · intro h1 h2
    rw [Trackball.rotateCamera_update h1 h2, Trackball.updateViewMatrix_eq]
    rfl
  · intro h1 h2
    rw [Trackball.translateCamera_update h1 h2, Trackball.updateViewMatrix_eq]
    rfl

/-- C7 witness: the gesture-update conjuncts applied at concrete states
with the respective gesture active and an input differing from the stored
reference. -/
theorem claim_c7_witness :
    (Trackball.rotateCamera ⟨600, 300⟩ scenarioBegun).viewMatrix =
      Trackball.viewComposition (Trackball.rotateCamera ⟨600, 300⟩ scenarioBegun) ∧
    (Trackball.translateCamera ⟨0, 0⟩ translatingState).viewMatrix =
      Trackball.viewComposition (Trackball.translateCamera ⟨0, 0⟩ translatingState) :=
  ⟨(claim_c7_eager_recompute_except_direct_mutators scenarioBegun 2 ⟨600, 300⟩ 0 1).2.2.2.1
      rfl (by
        intro hcon
        have h2 := congrArg Vec2.x hcon
        norm_num [Vec3.head2, scenarioBegun, sampleState] at h2),
   (claim_c7_eager_recompute_except_direct_mutators translatingState 2 ⟨0, 0⟩ 0 1).2.2.2.2.1
      rfl (by
        intro hcon
        have h2 := congrArg Vec2.x hcon
        norm_num [Vec3.head2, translatingState, sampleState] at h2)⟩

/-- C7 counterexample: translateViewMatrix mutates the translation
accumulator without recomputing the view matrix; from the constructed
default state, after translateViewMatrix (1,0,0) the stored view matrix
differs from the composition of the resulting state at entry (0,3). -/
theorem claim_c7_counterexample :
    (Trackball.translateViewMatrix ⟨1, 0, 0⟩
        (Trackball.construct sampleState)).viewMatrix ≠
      Trackball.viewComposition
        (Trackball.translateViewMatrix ⟨1, 0, 0⟩
          (Trackball.construct sampleState)) := by
  have hvm : (Trackball.construct sampleState).viewMatrix = transM ⟨0, 0, -4⟩ := by
    rw [Trackball.construct_eq]
  have htv : (Trackball.construct sampleState).translationVector = 0 := by
    rw [Trackball.construct_eq]
  have hz : (Trackball.construct sampleState).zoom = 1 := by
    rw [Trackball.construct_eq]
  have hq : (Trackball.construct sampleState).quaternion = 1 := by
    rw [Trackball.construct_eq]
  have hqd : (Trackball.construct sampleState).default_quaternion = 1 := by
    rw [Trackball.construct_eq]
  have htd : (Trackball.construct sampleState).defaultTranslation = ⟨0, 0, -4⟩ := by
    rw [Trackball.construct_eq]
  have hadd : (0 : Vec3) + (⟨1, 0, 0⟩ : Vec3) = ⟨1, 0, 0⟩ := by
    show (⟨0 + 1, 0 + 0, 0 + 0⟩ : Vec3) = ⟨1, 0, 0⟩
    norm_num
  have hA : (Trackball.translateViewMatrix ⟨1, 0, 0⟩
      (Trackball.construct sampleState)).viewMatrix = transM ⟨0, 0, -4⟩ := hvm
  have hB : Trackball.viewComposition (Trackball.translateViewMatrix ⟨1, 0, 0⟩
      (Trackball.construct sampleState)) = transM ⟨1, 0, 0⟩ * transM ⟨0, 0, -4⟩ := by
    unfold Trackball.viewComposition Trackball.translateViewMatrix
    dsimp only
    rw [hz, hq, hqd, htd, htv, hadd, Trackball.scaleM_one, Trackball.rotM_one,
      one_mul, mul_one, mul_one]
  intro hcon
  rw [hA, hB] at hcon
  have h03 := congrFun (congrFun hcon.symm 0) 3
  have hLv : transM (⟨0, 0, -4⟩ : Vec3) 0 3 = 0 := by
    simp [transM]
  have hRv : (transM ⟨1, 0, 0⟩ * transM ⟨0, 0, -4⟩) 0 3 = 1 := by
    rw [Matrix.mul_apply, Fin.sum_univ_four]
    simp [transM, Matrix.vecHead, Matrix.vecTail]
  rw [hLv, hRv] at h03
  norm_num at h03

/-- C9: concrete scenario from the defaults with viewport (0,0,800,600) and
radius 0.8: beginning a rotation at screen point (400,300) normalizes to
(0,0) and stores the surface point (0,0,0.8); a subsequent update at screen
point (600,300) leaves the accumulated quaternion equal to a rotation about
the y axis by a positive angle below pi, and changes the view matrix away
from the default composition. -/
theorem claim_c9_rotation_scenario :
    Trackball.normalizePosition sampleState ⟨400, 300⟩ = ⟨0, 0⟩ ∧
    (Trackball.rotateCamera ⟨400, 300⟩ sampleState).initialPosition = ⟨0, 0, 0.8⟩ ∧
    (∃ θ : ℝ, 0 < θ ∧ θ < Real.pi ∧
      (Trackball.rotateCamera ⟨600, 300⟩
          (Trackball.rotateCamera ⟨400, 300⟩ sampleState)).quaternion =
        ⟨Real.cos (θ / 2), 0, Real.sin (θ / 2), 0⟩) ∧
    (Trackball.rotateCamera ⟨600, 300⟩
        (Trackball.rotateCamera ⟨400, 300⟩ sampleState)).viewMatrix ≠
      (Trackball.rotateCamera ⟨400, 300⟩ sampleState).viewMatrix := by
  have hn1 : Trackball.normalizePosition sampleState ⟨400, 300⟩ = ⟨0, 0⟩ := by
    unfold Trackball.normalizePosition sampleState
    dsimp only
    norm_num [Vec2.mk.injEq]
  have hsp1 : Trackball.computeSpherePosition sampleState ⟨0, 0⟩ = ⟨0, 0, 0.8⟩ := by
    unfold Trackball.computeSpherePosition sampleState
    dsimp only
    rw [if_pos (show (0 : ℝ) * 0 + 0 * 0 ≤ 0.8 * 0.8 / 2 by norm_num)]
    refine congrArg (Vec3.mk 0 0) ?_
    rw [show (0.8 : ℝ) * 0.8 - 0 * 0 - 0 * 0 = 0.8 ^ 2 by norm_num,
      Real.sqrt_sq (by norm_num : (0 : ℝ) ≤ 0.8)]
  have hbegin : Trackball.rotateCamera ⟨400, 300⟩ sampleState = scenarioBegun := by
    rw [Trackball.rotateCamera_begin rfl, hn1, hsp1]
    rfl
  have hn2 : Trackball.normalizePosition scenarioBegun ⟨600, 300⟩ = ⟨0.5, 0⟩ := by
    unfold Trackball.normalizePosition scenarioBegun sampleState
    dsimp only
    norm_num [Vec2.mk.injEq]
  have hsp2 : Trackball.computeSpherePosition scenarioBegun ⟨0.5, 0⟩ =
      ⟨0.5, 0, Real.sqrt 0.39⟩ := by
    unfold Trackball.computeSpherePosition scenarioBegun sampleState
    dsimp only
    rw [if_pos (show (0.5 : ℝ) * 0.5 + 0 * 0 ≤ 0.8 * 0.8 / 2 by norm_num)]
    refine congrArg (Vec3.mk 0.5 0) ?_
    rw [show (0.8 : ℝ) * 0.8 - 0.5 * 0.5 - 0 * 0 = 0.39 by norm_num]
  have h2 : ¬ (⟨600, 300⟩ : Vec2) = scenarioBegun.initialPosition.head2 := by
    intro hcon
    have h2x := congrArg Vec2.x hcon
    norm_num [Vec3.head2, scenarioBegun, sampleState] at h2x
  have hnp : Trackball.computeSpherePosition scenarioBegun
      (Trackball.normalizePosition scenarioBegun ⟨600, 300⟩) =
      ⟨0.5, 0, Real.sqrt 0.39⟩ := by rw [hn2, hsp2]
  have hIP : scenarioBegun.initialPosition = ⟨0, 0, 0.8⟩ := rfl
  have hQsb : scenarioBegun.quaternion = 1 := rfl
  have hnormip : Vec3.norm ⟨0, 0, 0.8⟩ = 0.8 := by
    unfold Vec3.norm Vec3.normSq
    dsimp only
    rw [show (0 : ℝ) ^ 2 + 0 ^ 2 + (0.8 : ℝ) ^ 2 = 0.8 ^ 2 by norm_num,
      Real.sqrt_sq (by norm_num : (0 : ℝ) ≤ 0.8)]
  have hip_pos : Vec3.norm ⟨0, 0, 0.8⟩ > 0 := by rw [hnormip]; norm_num
  have hs39 : Real.sqrt 0.39 ^ 2 = 0.39 :=
    Real.sq_sqrt (by norm_num : (0 : ℝ) ≤ 0.39)
  have hnormfp : Vec3.norm ⟨0.5, 0, Real.sqrt 0.39⟩ = 0.8 := by
    unfold Vec3.norm Vec3.normSq
    dsimp only
    rw [hs39, show (0.5 : ℝ) ^ 2 + 0 ^ 2 + 0.39 = 0.8 ^ 2 by norm_num,
      Real.sqrt_sq (by norm_num : (0 : ℝ) ≤ 0.8)]
  have hfp_pos : Vec3.norm ⟨0.5, 0, Real.sqrt 0.39⟩ > 0 := by rw [hnormfp]; norm_num
  have hipn : Vec3.normalized ⟨0, 0, 0.8⟩ = ⟨0, 0, 1⟩ := by
    unfold Vec3.normalized
    rw [hnormip]
    unfold Vec3.smul
    dsimp only
    norm_num [Vec3.mk.injEq]
  have hfpn : Vec3.normalized ⟨0.5, 0, Real.sqrt 0.39⟩ =
      ⟨0.625, 0, 1.25 * Real.sqrt 0.39⟩ := by
    unfold Vec3.normalized
    rw [hnormfp]
    unfold Vec3.smul
    dsimp only
    norm_num [Vec3.mk.injEq]
  have hcross : Vec3.cross ⟨0, 0, 1⟩ ⟨0.625, 0, 1.25 * Real.sqrt 0.39⟩ =
      ⟨0, 0.625, 0⟩ := by
    unfold Vec3.cross
    dsimp only
    norm_num [Vec3.mk.injEq]
  have hcnorm : Vec3.norm ⟨0, 0.625, 0⟩ = 0.625 := by
    unfold Vec3.norm Vec3.normSq
    dsimp only
    rw [show (0 : ℝ) ^ 2 + (0.625 : ℝ) ^ 2 + 0 ^ 2 = 0.625 ^ 2 by norm_num,
      Real.sqrt_sq (by norm_num : (0 : ℝ) ≤ 0.625)]
  have hcne : Vec3.norm ⟨0, 0.625, 0⟩ ≠ 0 := by rw [hcnorm]; norm_num
  have haxis : Vec3.normalized ⟨0, 0.625, 0⟩ = ⟨0, 1, 0⟩ := by
    unfold Vec3.normalized
    rw [hcnorm]
    unfold Vec3.smul
    dsimp only
    norm_num [Vec3.mk.injEq]
  have hdot : Vec3.dot ⟨0, 0, 1⟩ ⟨0.625, 0, 1.25 * Real.sqrt 0.39⟩ =
      1.25 * Real.sqrt 0.39 := by
    unfold Vec3.dot
    dsimp only
    ring
  have hs39le : Real.sqrt 0.39 ≤ 0.8 := by
    have hle : Real.sqrt 0.39 ≤ Real.sqrt 0.64 :=
      Real.sqrt_le_sqrt (by norm_num)
    rwa [show (0.64 : ℝ) = 0.8 ^ 2 by norm_num,
      Real.sqrt_sq (by norm_num : (0 : ℝ) ≤ 0.8)] at hle
  have hs39lt : Real.sqrt 0.39 < 0.8 := by
    have hlt : Real.sqrt 0.39 < Real.sqrt 0.64 :=
      Real.sqrt_lt_sqrt (by norm_num) (by norm_num)
    rwa [show (0.64 : ℝ) = 0.8 ^ 2 by norm_num,
      Real.sqrt_sq (by norm_num : (0 : ℝ) ≤ 0.8)] at hlt
  have hs39pos : 0 < Real.sqrt 0.39 := Real.sqrt_pos.mpr (by norm_num)
  have hdotle : 1.25 * Real.sqrt 0.39 ≤ 1 := by nlinarith
  have hdlt1 : 1.25 * Real.sqrt 0.39 < 1 := by nlinarith
  have hdpos : 0 < 1.25 * Real.sqrt 0.39 := by nlinarith
  have haxisns : Vec3.normSq ⟨0, 1, 0⟩ = 1 := by
    unfold Vec3.normSq
    norm_num
  have hqdelta : ‖quatOfAngleAxis (Real.arccos (1.25 * Real.sqrt 0.39))
      ⟨0, 1, 0⟩‖ = 1 :=
    quat_norm_eq_one_of_normSq (quatOfAngleAxis_normSq _ _ haxisns)
  have hθpos : 0 < Real.arccos (1.25 * Real.sqrt 0.39) :=
    Real.arccos_pos.mpr hdlt1
  have hθpi : Real.arccos (1.25 * Real.sqrt 0.39) < Real.pi := by
    have hhalf := Real.arccos_lt_pi_div_two.mpr hdpos
    linarith [Real.pi_pos]
  have hCRA : Trackball.computeRotationAngle
      { scenarioBegun with finalPosition := (⟨0.5, 0, Real.sqrt 0.39⟩ : Vec3) } =
      { scenarioBegun with
        initialPosition := ⟨0, 0, 1⟩
        finalPosition := ⟨0.625, 0, 1.25 * Real.sqrt 0.39⟩
        quaternion := quatOfAngleAxis (Real.arccos (1.25 * Real.sqrt 0.39))
          ⟨0, 1, 0⟩ } := by
    unfold Trackball.computeRotationAngle
    dsimp only
    rw [hIP, hQsb, if_pos hip_pos, if_pos hfp_pos, hipn, hfpn, hcross,
      if_pos hcne, haxis, hdot, if_pos hdotle, mul_one,
      quatNormalize_of_norm_one hqdelta]
  have h2q : (Trackball.rotateCamera ⟨600, 300⟩ scenarioBegun).quaternion =
      quatOfAngleAxis (Real.arccos (1.25 * Real.sqrt 0.39)) ⟨0, 1, 0⟩ := by
    rw [Trackball.rotateCamera_update rfl h2]
    dsimp only
    rw [hnp, hCRA]
    try rfl
  have h2vm : (Trackball.rotateCamera ⟨600, 300⟩ scenarioBegun).viewMatrix =
      Trackball.viewComposition { scenarioBegun with
        initialPosition := ⟨0, 0, 1⟩
        finalPosition := ⟨0.625, 0, 1.25 * Real.sqrt 0.39⟩
        quaternion := quatOfAngleAxis (Real.arccos (1.25 * Real.sqrt 0.39))
          ⟨0, 1, 0⟩ } := by
    rw [Trackball.rotateCamera_update rfl h2]
    dsimp only
    rw [hnp, hCRA, Trackball.updateViewMatrix_eq]
    try rfl
  have hVC : Trackball.viewComposition { scenarioBegun with
      initialPosition := ⟨0, 0, 1⟩
      finalPosition := ⟨0.625, 0, 1.25 * Real.sqrt 0.39⟩
      quaternion := quatOfAngleAxis (Real.arccos (1.25 * Real.sqrt 0.39))
        ⟨0, 1, 0⟩ } =
      rotM (quatOfAngleAxis (Real.arccos (1.25 * Real.sqrt 0.39)) ⟨0, 1, 0⟩) *
        transM ⟨0, 0, -4⟩ := by
    unfold Trackball.viewComposition
    dsimp only
    rw [show scenarioBegun.zoom = 1 from rfl,
      show scenarioBegun.translationVector = 0 from rfl,
      show scenarioBegun.defaultTranslation = (⟨0, 0, -4⟩ : Vec3) from rfl,
      show scenarioBegun.default_quaternion = 1 from rfl,
      Trackball.scaleM_one, Trackball.transM_zero, Trackball.rotM_one,
      one_mul, one_mul, mul_one]
  refine ⟨hn1, ?_, ⟨Real.arccos (1.25 * Real.sqrt 0.39), hθpos, hθpi, ?_⟩, ?_⟩
  · rw [hbegin]
    rfl
  · rw [hbegin, h2q]
    apply Quaternion.ext <;> simp [quatOfAngleAxis]
  · rw [hbegin]
    intro hcon
    rw [h2vm, hVC, show scenarioBegun.viewMatrix = transM ⟨0, 0, -4⟩ from rfl]
      at hcon
    have h00 := congrFun (congrFun hcon 0) 0
    have hR00 : (rotM (quatOfAngleAxis (Real.arccos (1.25 * Real.sqrt 0.39))
        ⟨0, 1, 0⟩) * transM ⟨0, 0, -4⟩) 0 0 =
        1 - 2 * Real.sin (Real.arccos (1.25 * Real.sqrt 0.39) / 2) ^ 2 := by
      rw [Matrix.mul_apply, Fin.sum_univ_four]
      simp [rotM, transM, quatOfAngleAxis, Matrix.vecHead, Matrix.vecTail]
    have hL00 : transM (⟨0, 0, -4⟩ : Vec3) 0 0 = 1 := by
      simp [transM]
    rw [hR00, hL00] at h00
    have hhalfpos : 0 < Real.arccos (1.25 * Real.sqrt 0.39) / 2 := by linarith
    have hhalfpi : Real.arccos (1.25 * Real.sqrt 0.39) / 2 < Real.pi := by
      linarith
    have hsin : 0 < Real.sin (Real.arccos (1.25 * Real.sqrt 0.39) / 2) :=
      Real.sin_pos_of_pos_of_lt_pi hhalfpos hhalfpi
    nlinarith [hsin]

/-- C10: setDefaultTranslation and setDefaultRotation mutate only their own
field (in particular the stored view matrix is untouched), and the new
default only takes effect at the next updateViewMatrix, which then composes
with the new default. -/
theorem claim_c10_default_setters_lazy (s : Trackball) (t : Vec3) (r : Quat) :
    Trackball.setDefaultTranslation t s = { s with defaultTranslation := t } ∧
    Trackball.setDefaultRotation r s = { s with default_quaternion := r } ∧
    (Trackball.updateViewMatrix (Trackball.setDefaultTranslation t s)).viewMatrix =
      scaleM s.zoom * transM s.translationVector * rotM s.quaternion *
        transM t * rotM s.default_quaternion ∧
    (Trackball.updateViewMatrix (Trackball.setDefaultRotation r s)).viewMatrix =
      scaleM s.zoom * transM s.translationVector * rotM s.quaternion *
        transM s.defaultTranslation * rotM r := by
  refine ⟨rfl, rfl, ?_, ?_⟩ <;> rw [Trackball.updateViewMatrix_eq] <;> rfl

end
